import Mathlib

/-!
Shallow embedding of the bounded-concurrency request dispatcher implemented in
`src/07_practical_example.rs` (struct `LoadBalancer`, `RequestHandler`,
`ServerStats`, and the `request_generator` / `response_collector` harness).

Pure code (status derivation, stats updates, the collector and generator
loops, the constructor configuration) is translated to Lean functions.
The concurrent part (four worker tasks pulling from a shared bounded mpsc
channel, gated by a `tokio::sync::Semaphore`, pushing into a second bounded
mpsc channel read by the collector) is embedded as a small-step transition
relation `Step` over an explicit state `LBState`; one transition per
suspension point of the Rust tasks (`recv`, `acquire`, `sleep`, `send`),
so that everything a task does between two `await` points is a single
atomic step, exactly as the tokio scheduler interleaves them.

`u64` atomic counters are modelled as `Nat` reduced modulo `2 ^ 64`
(`AtomicU64::fetch_add` wraps).  `Duration` values are carried as plain
`Nat` (milliseconds); the model does not measure real time.
-/

namespace AsyncServer

/-- Modulus of the `u64` counters: `2 ^ 64 = 18446744073709551616`. -/
def u64Limit : Nat := 18446744073709551616

/-- Mirror of `struct Request { id: u64, path: String, processing_time: Duration }`. -/
structure Request where
  id : Nat
  path : String
  processing_time : Nat
deriving DecidableEq

/-- Mirror of `struct Response { request_id: u64, status: u16, body: String }`. -/
structure Response where
  request_id : Nat
  status : Nat
  body : String
deriving DecidableEq

/-- Mirror of `struct ServerStats` (three `AtomicU64` counters). -/
structure ServerStats where
  total_requests : Nat
  successful_requests : Nat
  failed_requests : Nat
deriving DecidableEq

/-- `ServerStats::new()`: all counters start at zero. -/
def ServerStats.new : ServerStats :=
  { total_requests := 0, successful_requests := 0, failed_requests := 0 }

/-- `ServerStats::record_request`: `total_requests.fetch_add(1, Relaxed)` (wrapping `u64`). -/
def ServerStats.record_request (s : ServerStats) : ServerStats :=
  { s with total_requests := (s.total_requests + 1) % u64Limit }

/-- `ServerStats::record_success`: `successful_requests.fetch_add(1, Relaxed)`. -/
def ServerStats.record_success (s : ServerStats) : ServerStats :=
  { s with successful_requests := (s.successful_requests + 1) % u64Limit }

/-- `ServerStats::record_failure`: `failed_requests.fetch_add(1, Relaxed)`. -/
def ServerStats.record_failure (s : ServerStats) : ServerStats :=
  { s with failed_requests := (s.failed_requests + 1) % u64Limit }

/-- Status computed inside `RequestHandler::handle_request`:
`if request.id % 7 == 0 { 500 } else { 200 }`. -/
def response_status (id : Nat) : Nat :=
  if id % 7 = 0 then 500 else 200

/-- The `Response` value built by `RequestHandler::handle_request`. -/
def mkResponse (r : Request) : Response :=
  { request_id := r.id
    status := response_status r.id
    body := "Response for " ++ r.path }

/-- Everything observable about one call of `RequestHandler::handle_request`:
how long the simulated processing slept, the stats counters after the call,
and the returned `Response`.  (The handler's `id` field is only printed,
it does not influence any of these.) -/
structure HandleResult where
  slept : Nat
  stats : ServerStats
  response : Response
deriving DecidableEq

/-- `RequestHandler::handle_request`: records the request, sleeps for
`processing_time`, records failure (status 500) when `id % 7 == 0` and
success (status 200) otherwise, and returns the response. -/
def handle_request (stats : ServerStats) (r : Request) : HandleResult :=
  { slept := r.processing_time
    stats :=
      if r.id % 7 = 0 then (stats.record_request).record_failure
      else (stats.record_request).record_success
    response := mkResponse r }

/-- Request built by `request_generator` for index `i`:
`path = format!("/api/endpoint{}", i % 5)`,
`processing_time = Duration::from_millis(100 + (i % 5) * 50)`. -/
def genRequest (i : Nat) : Request :=
  { id := i
    path := "/api/endpoint" ++ toString (i % 5)
    processing_time := 100 + (i % 5) * 50 }

/-- `let num_workers = 4;` in `LoadBalancer::new`. -/
def num_workers : Nat := 4

/-- `mpsc::channel(100)` for the request (inbound) channel. -/
def inbound_capacity : Nat := 100

/-- `mpsc::channel(100)` for the response (outbound) channel. -/
def outbound_capacity : Nat := 100

/-- The fixed configuration `LoadBalancer::new(max_concurrent, stats)` sets
up: both channel capacities and the worker count are literals in the
constructor body; only the semaphore permit count comes from the caller. -/
structure LBConfig where
  request_queue_capacity : Nat
  response_queue_capacity : Nat
  worker_count : Nat
  semaphore_permits : Nat
deriving DecidableEq

/-- Configuration created by `LoadBalancer::new(max_concurrent, _)`. -/
def LoadBalancer.newConfig (max_concurrent : Nat) : LBConfig :=
  { request_queue_capacity := inbound_capacity
    response_queue_capacity := outbound_capacity
    worker_count := num_workers
    semaphore_permits := max_concurrent }

/-- Phase of one spawned worker task, one constructor per suspension point
of the worker loop in `LoadBalancer::new`:

* `idle` — at the top of the loop, about to `rx.lock().await` / `recv().await`;
* `gotReq r` — `recv` returned `Some(r)`, about to `sem.acquire().await.unwrap()`;
* `processing r` — permit held, `stats.record_request()` done, sleeping in
  `handle_request`;
* `sending resp` — sleep finished, success/failure recorded, response built,
  about to `tx.send(resp).await` (the permit is still held: `_permit` lives
  to the end of the `match` arm);
* `done` — loop exited after `recv` returned `None` (the worker task has
  terminated and dropped its `response_tx` clone);
* `panicked` — the `unwrap()` on `sem.acquire()` panicked, which tokio only
  allows when the semaphore has been closed. -/
inductive WPhase where
  | idle
  | gotReq (r : Request)
  | processing (r : Request)
  | sending (resp : Response)
  | done
  | panicked
deriving DecidableEq

/-- Does this phase hold a semaphore permit?  The permit is acquired on the
`gotReq → processing` transition and dropped at the end of the `match` arm,
after the `sending → idle` send completes. -/
def WPhase.holdsPermit : WPhase → Bool
  | WPhase.processing _ => true
  | WPhase.sending _ => true
  | _ => false

/-- Is this phase currently executing a request (inside `handle_request`)? -/
def WPhase.isExecuting : WPhase → Bool
  | WPhase.processing _ => true
  | _ => false

/-- Has this worker task terminated (normally or by panic)?  Either way its
clone of `response_tx` has been dropped. -/
def WPhase.exited : WPhase → Bool
  | WPhase.done => true
  | WPhase.panicked => true
  | _ => false

/-- Ids of the requests this worker currently owns (taken from the inbound
queue but not yet pushed to the outbound queue). -/
def WPhase.inflightIds : WPhase → List Nat
  | WPhase.gotReq r => [r.id]
  | WPhase.processing r => [r.id]
  | WPhase.sending resp => [resp.request_id]
  | _ => []

/-- Responses this worker has built but not yet pushed to the outbound queue. -/
def WPhase.pendingResponses : WPhase → List Response
  | WPhase.sending resp => [resp]
  | _ => []

/-- Global state of the dispatcher: the two bounded channels, the collector's
view of the outbound channel, the four worker tasks, the semaphore, the
shared stats, plus two history variables (`collected`, `submitted`) recording
what the collector received and what `submit_request` accepted. -/
structure LBState where
  inQueue : List Request
  inClosed : Bool
  outQueue : List Response
  sawNone : Bool
  workers : List WPhase
  permits : Nat
  semClosed : Bool
  stats : ServerStats
  collected : List Response
  submitted : List Request
deriving DecidableEq

/-- State right after `LoadBalancer::new(max_concurrent, stats)` returns:
empty channels, `num_workers` idle workers, `max_concurrent` permits, fresh
stats.  (`drop(response_tx)` has already run, so the only live senders of
the outbound channel are the worker clones.) -/
def initState (max_concurrent : Nat) : LBState :=
  { inQueue := []
    inClosed := false
    outQueue := []
    sawNone := false
    workers := List.replicate num_workers WPhase.idle
    permits := max_concurrent
    semClosed := false
    stats := ServerStats.new
    collected := []
    submitted := [] }

/-- `LoadBalancer::available_slots`: `semaphore.available_permits()`. -/
def LoadBalancer.available_slots (s : LBState) : Nat :=
  s.permits

/-- Result of one call to `LoadBalancer::submit_request` against the current
channel state: `ok` with the new state, `suspended` (backpressure, the caller
stays parked in `send().await`), or `err` (channel closed,
`map_err(|_| "无法提交请求")`). -/
inductive SubmitOutcome where
  | ok (s' : LBState)
  | suspended
  | err (msg : String)
deriving DecidableEq

/-- `LoadBalancer::submit_request`: `request_tx.send(request).await` on a
bounded channel of capacity `inbound_capacity`; an error is returned exactly
when the channel is closed, a full channel suspends the caller. -/
def submit_request (s : LBState) (r : Request) : SubmitOutcome :=
  if s.inClosed then SubmitOutcome.err "无法提交请求"
  else if s.inQueue.length < inbound_capacity then
    SubmitOutcome.ok
      { s with inQueue := s.inQueue ++ [r], submitted := s.submitted ++ [r] }
  else SubmitOutcome.suspended

/-- One atomic step of the whole system (one task running from one suspension
point to the next).  Worker occurrences are located by splitting the worker
list as `pre ++ phase :: post`.

Channel semantics follow `tokio::sync::mpsc`: `recv` yields `None` exactly
when every sender has been dropped and the buffer is empty; for the inbound
channel the sender is dropped when the `LoadBalancer` owner closes it
(`closeInbound`), for the outbound channel the senders are the worker clones,
all dropped exactly when every worker task has exited. -/
inductive Step : LBState → LBState → Prop where
  | submit (s s' : LBState) (r : Request)
      (h : submit_request s r = SubmitOutcome.ok s') :
      Step s s'
  | closeInbound (s : LBState) :
      Step s { s with inClosed := true }
  | workerRecv (s : LBState) (pre post : List WPhase) (r : Request)
      (rest : List Request)
      (hw : s.workers = pre ++ WPhase.idle :: post)
      (hq : s.inQueue = r :: rest) :
      Step s { s with inQueue := rest, workers := pre ++ WPhase.gotReq r :: post }
  | workerRecvNone (s : LBState) (pre post : List WPhase)
      (hw : s.workers = pre ++ WPhase.idle :: post)
      (hclosed : s.inClosed = true) (hq : s.inQueue = []) :
      Step s { s with workers := pre ++ WPhase.done :: post }
  | workerAcquire (s : LBState) (pre post : List WPhase) (r : Request)
      (hw : s.workers = pre ++ WPhase.gotReq r :: post)
      (hperm : 0 < s.permits) (hsem : s.semClosed = false) :
      Step s { s with permits := s.permits - 1,
                      workers := pre ++ WPhase.processing r :: post,
                      stats := s.stats.record_request }
  | workerAcquirePanic (s : LBState) (pre post : List WPhase) (r : Request)
      (hw : s.workers = pre ++ WPhase.gotReq r :: post)
      (hsem : s.semClosed = true) :
      Step s { s with workers := pre ++ WPhase.panicked :: post }
  | workerFinish (s : LBState) (pre post : List WPhase) (r : Request)
      (hw : s.workers = pre ++ WPhase.processing r :: post) :
      Step s { s with workers := pre ++ WPhase.sending (mkResponse r) :: post,
                      stats := if r.id % 7 = 0 then s.stats.record_failure
                               else s.stats.record_success }
  | workerSend (s : LBState) (pre post : List WPhase) (resp : Response)
      (hw : s.workers = pre ++ WPhase.sending resp :: post)
      (hcap : s.outQueue.length < outbound_capacity) :
      Step s { s with outQueue := s.outQueue ++ [resp],
                      permits := s.permits + 1,
                      workers := pre ++ WPhase.idle :: post }
  | collectorRecv (s : LBState) (resp : Response) (rest : List Response)
      (hq : s.outQueue = resp :: rest) :
      Step s { s with outQueue := rest, collected := s.collected ++ [resp] }
  | collectorRecvNone (s : LBState)
      (hdone : s.workers.all WPhase.exited = true)
      (hq : s.outQueue = []) :
      Step s { s with sawNone := true }

/-- States reachable from `initState K` by interleaved task steps. -/
inductive Reach (K : Nat) : LBState → Prop where
  | init : Reach K (initState K)
  | step (s s' : LBState) (h : Reach K s) (hs : Step s s') : Reach K s'

/-- All responses that exist but are not yet consumed by the collector,
plus the consumed ones: responses held by workers about to send, responses
buffered in the outbound channel, and responses already collected. -/
def inflightResponses (s : LBState) : List Response :=
  s.workers.flatMap WPhase.pendingResponses ++ s.outQueue ++ s.collected

/-- Multiset of request ids currently anywhere in the pipeline: inbound
queue, worker-held, outbound queue (as `request_id`), or collected. -/
def liveIds (s : LBState) : Multiset Nat :=
  (↑(s.inQueue.map Request.id) : Multiset Nat)
    + ↑(s.workers.flatMap WPhase.inflightIds)
    + ↑(s.outQueue.map Response.request_id)
    + ↑(s.collected.map Response.request_id)

/-- How the stats counters may change across one atomic step: unchanged, or
exactly one counter bumped (matching exactly one of `record_request`,
`record_success`, `record_failure`). -/
def StatsDelta (a b : ServerStats) : Prop :=
  b = a ∨ b = a.record_request ∨ b = a.record_success ∨ b = a.record_failure

/-- Outcome of one `timeout(Duration::from_secs(10), lb.get_response()).await`
inside `response_collector`: `Ok(Some(r))`, `Ok(None)` (channel closed), or
`Err(_)` (the 10 s timeout elapsed). -/
inductive PollResult where
  | resp (r : Response)
  | chanClosed
  | timedOut
deriving DecidableEq

/-- Which of the three conditions ended the collector loop. -/
inductive StopReason where
  | countReached
  | streamClosed
  | respTimeout
deriving DecidableEq

/-- One line the collector prints, one constructor per `println!` in
`response_collector` (success line, failure line, "响应通道关闭",
"等待响应超时", and the final "共收到 n 个响应" report). -/
inductive LogEntry where
  | gotSuccess (id : Nat)
  | gotFailure (id : Nat) (status : Nat)
  | channelClosedMsg
  | timeoutMsg
  | finalReport (received : Nat)
deriving DecidableEq

/-- Final state of one `response_collector` run. -/
structure CollectorOutcome where
  received : Nat
  reason : StopReason
  log : List LogEntry
deriving DecidableEq

/-- The `while received < expected_count` loop of `response_collector`,
driven by the list of poll outcomes the channel/timeout produce; `none`
means the supplied poll list ran out before the loop terminated. -/
def collectorLoop (expected : Nat) : Nat → List PollResult → Option CollectorOutcome
  | received, [] =>
      if received < expected then none
      else some ⟨received, StopReason.countReached, [LogEntry.finalReport received]⟩
  | received, p :: rest =>
      if received < expected then
        match p with
        | PollResult.resp r =>
            match collectorLoop expected (received + 1) rest with
            | none => none
            | some out =>
                some ⟨out.received, out.reason,
                  (if r.status = 200 then LogEntry.gotSuccess r.request_id
                   else LogEntry.gotFailure r.request_id r.status) :: out.log⟩
        | PollResult.chanClosed =>
            some ⟨received, StopReason.streamClosed,
              [LogEntry.channelClosedMsg, LogEntry.finalReport received]⟩
        | PollResult.timedOut =>
            some ⟨received, StopReason.respTimeout,
              [LogEntry.timeoutMsg, LogEntry.finalReport received]⟩
      else some ⟨received, StopReason.countReached, [LogEntry.finalReport received]⟩

/-- `response_collector(lb, expected_count)`: run the loop from
`received = 0`. -/
def response_collector (expected : Nat) (polls : List PollResult) :
    Option CollectorOutcome :=
  collectorLoop expected 0 polls

/-- The `for i in 1..=num_requests` loop of `request_generator`, driven by
the per-iteration result of `submit_request` (`true` = `Ok`): returns how
many requests were submitted successfully and whether the loop broke with a
"提交请求失败" report. -/
def generator_loop : List Bool → Nat × Bool
  | [] => (0, false)
  | ok :: rest =>
      if ok then
        ((generator_loop rest).1 + 1, (generator_loop rest).2)
      else (0, true)

/-- First request of the concrete demonstration run. -/
def q1 : Request := { id := 1, path := "a", processing_time := 10 }

/-- Second request of the concrete demonstration run (`7 % 7 == 0`, fails). -/
def q7 : Request := { id := 7, path := "b", processing_time := 10 }

/-- Response produced for `q1`. -/
def wResp1 : Response := { request_id := 1, status := 200, body := "Response for a" }

/-- Response produced for `q7`. -/
def wResp7 : Response := { request_id := 7, status := 500, body := "Response for b" }

/-- Outcome of a concrete collector run: expecting one response and
receiving it. -/
def wOutcome : CollectorOutcome :=
  { received := 1
    reason := StopReason.countReached
    log := [LogEntry.gotSuccess 1, LogEntry.finalReport 1] }

/-- Final state of a complete concrete run with `K = 3`: `q1` and `q7` are
submitted, the inbound side is closed, worker 0 processes both requests,
the collector drains both responses, all four workers terminate, and the
collector observes the end-of-stream `None`. -/
def wState : LBState :=
  { inQueue := []
    inClosed := true
    outQueue := []
    sawNone := true
    workers := [WPhase.done, WPhase.done, WPhase.done, WPhase.done]
    permits := 3
    semClosed := false
    stats := { total_requests := 2, successful_requests := 1, failed_requests := 1 }
    collected := [wResp1, wResp7]
    submitted := [q1, q7] }

/-! Helper lemmas. -/

/-- Membership in a worker list after one phase was replaced. -/
theorem mem_update {α : Type} {pre post : List α} {a x : α} (b : α)
    (hx : x ∈ pre ++ a :: post) : x ∈ pre ++ b :: post ∨ x = a := by
  rcases List.mem_append.mp hx with h | h
  · exact Or.inl (List.mem_append_left _ h)
  · rcases List.mem_cons.mp h with h | h
    · exact Or.inr h
    · exact Or.inl (List.mem_append_right _ (List.mem_cons_of_mem _ h))

/-- A worker list containing a non-exited phase is not all-exited. -/
theorem not_all_exited (pre post : List WPhase) (a : WPhase)
    (ha : WPhase.exited a = false) :
    (pre ++ a :: post).all WPhase.exited = false := by
  simp [List.all_append, List.all_cons, ha]

/-- Inversion of a successful `submit_request`. -/
theorem submit_request_ok {s s' : LBState} {r : Request}
    (h : submit_request s r = SubmitOutcome.ok s') :
    s.inClosed = false ∧ s.inQueue.length < inbound_capacity ∧
    s' = { s with inQueue := s.inQueue ++ [r], submitted := s.submitted ++ [r] } := by
  by_cases h1 : s.inClosed = true
  · simp [submit_request, h1] at h
  · have h1' : s.inClosed = false := by simpa using h1
    by_cases h2 : s.inQueue.length < inbound_capacity
    · refine ⟨h1', h2, ?_⟩
      simp [submit_request, h1', h2] at h
      rw [← h]
      simp [h1']
    · simp [submit_request, h1', h2] at h

theorem init_countP_holdsPermit :
    (List.replicate num_workers WPhase.idle).countP WPhase.holdsPermit = 0 := by decide

theorem init_countP_isExecuting :
    (List.replicate num_workers WPhase.idle).countP WPhase.isExecuting = 0 := by decide

theorem init_flatMap_inflightIds :
    (List.replicate num_workers WPhase.idle).flatMap WPhase.inflightIds = [] := by decide

theorem init_flatMap_pending :
    (List.replicate num_workers WPhase.idle).flatMap WPhase.pendingResponses = [] := by decide

/-- Every response built by a worker carries status 200 or 500. -/
theorem response_status_cases (r : Request) :
    (mkResponse r).status = 200 ∨ (mkResponse r).status = 500 := by
  by_cases h7 : r.id % 7 = 0 <;> simp [mkResponse, response_status, h7]

/-! Reachability invariants, each by induction over `Reach`. -/

/-- The semaphore is never closed: no step calls `Semaphore::close`. -/
theorem reach_semOpen {K : Nat} {s : LBState} (h : Reach K s) :
    s.semClosed = false := by
  induction h with
  | init => rfl
  | step s s' h hs ih =>
    cases hs
    case submit r hok =>
      obtain ⟨-, -, rfl⟩ := submit_request_ok hok
      exact ih
    all_goals exact ih

/-- No worker ever panics: the `unwrap()` error branch would require a
closed semaphore. -/
theorem reach_noPanic {K : Nat} {s : LBState} (h : Reach K s) :
    ∀ w ∈ s.workers, w ≠ WPhase.panicked := by
  induction h with
  | init =>
    intro w hw
    rw [List.eq_of_mem_replicate hw]
    decide
  | step s s' h hs ih =>
    cases hs
    case submit r hok =>
      obtain ⟨-, -, rfl⟩ := submit_request_ok hok
      exact ih
    case closeInbound => exact ih
    case workerRecv pre post r rest hw hq =>
      intro w hw2
      rcases mem_update WPhase.idle hw2 with h2 | h2
      · exact ih w (by rw [hw]; exact h2)
      · simp [h2]
    case workerRecvNone pre post hw hclosed hq =>
      intro w hw2
      rcases mem_update WPhase.idle hw2 with h2 | h2
      · exact ih w (by rw [hw]; exact h2)
      · simp [h2]
    case workerAcquire pre post r hw hperm hsem =>
      intro w hw2
      rcases mem_update (WPhase.gotReq r) hw2 with h2 | h2
      · exact ih w (by rw [hw]; exact h2)
      · simp [h2]
    case workerAcquirePanic pre post r hw hsem =>
      exact absurd hsem (by simp [reach_semOpen h])
    case workerFinish pre post r hw =>
      intro w hw2
      rcases mem_update (WPhase.processing r) hw2 with h2 | h2
      · exact ih w (by rw [hw]; exact h2)
      · simp [h2]
    case workerSend pre post resp hw hcap =>
      intro w hw2
      rcases mem_update (WPhase.sending resp) hw2 with h2 | h2
      · exact ih w (by rw [hw]; exact h2)
      · simp [h2]
    case collectorRecv resp rest hq => exact ih
    case collectorRecvNone hdone hq => exact ih

/-- The worker list always has exactly `num_workers` entries. -/
theorem reach_wlen {K : Nat} {s : LBState} (h : Reach K s) :
    s.workers.length = num_workers := by
  induction h with
  | init => simp [initState]
  | step s s' h hs ih =>
    cases hs
    case submit r hok =>
      obtain ⟨-, -, rfl⟩ := submit_request_ok hok
      exact ih
    case closeInbound => exact ih
    case workerRecv pre post r rest hw hq =>
      rw [hw] at ih
      simpa using ih
    case workerRecvNone pre post hw hclosed hq =>
      rw [hw] at ih
      simpa using ih
    case workerAcquire pre post r hw hperm hsem =>
      rw [hw] at ih
      simpa using ih
    case workerAcquirePanic pre post r hw hsem =>
      exact absurd hsem (by simp [reach_semOpen h])
    case workerFinish pre post r hw =>
      rw [hw] at ih
      simpa using ih
    case workerSend pre post resp hw hcap =>
      rw [hw] at ih
      simpa using ih
    case collectorRecv resp rest hq => exact ih
    case collectorRecvNone hdone hq => exact ih

/-- Semaphore accounting: available permits plus permits held by workers
always equal the construction-time cap `K`.  Each permit is acquired on the
`gotReq → processing` transition and given back on the `sending → idle`
transition (end of the `match` arm), on every path. -/
theorem reach_permitAcct {K : Nat} {s : LBState} (h : Reach K s) :
    s.permits + s.workers.countP WPhase.holdsPermit = K := by
  induction h with
  | init => simp [initState, init_countP_holdsPermit]
  | step s s' h hs ih =>
    cases hs
    case submit r hok =>
      obtain ⟨-, -, rfl⟩ := submit_request_ok hok
      exact ih
    case closeInbound => exact ih
    case workerRecv pre post r rest hw hq =>
      rw [hw] at ih
      simp [List.countP_append, List.countP_cons, WPhase.holdsPermit] at ih ⊢
      omega
    case workerRecvNone pre post hw hclosed hq =>
      rw [hw] at ih
      simp [List.countP_append, List.countP_cons, WPhase.holdsPermit] at ih ⊢
      omega
    case workerAcquire pre post r hw hperm hsem =>
      rw [hw] at ih
      simp [List.countP_append, List.countP_cons, WPhase.holdsPermit] at ih ⊢
      omega
    case workerAcquirePanic pre post r hw hsem =>
      exact absurd hsem (by simp [reach_semOpen h])
    case workerFinish pre post r hw =>
      rw [hw] at ih
      simp [List.countP_append, List.countP_cons, WPhase.holdsPermit] at ih ⊢
      omega
    case workerSend pre post resp hw hcap =>
      rw [hw] at ih
      simp [List.countP_append, List.countP_cons, WPhase.holdsPermit] at ih ⊢
      omega
    case collectorRecv resp rest hq => exact ih
    case collectorRecvNone hdone hq => exact ih

/-- Conservation of request ids: at every reachable state the multiset of
ids in the pipeline (inbound queue + worker-held + outbound queue +
collected) is exactly the multiset of accepted submissions.  No accepted
request is ever dropped or duplicated. -/
theorem reach_conserve {K : Nat} {s : LBState} (h : Reach K s) :
    liveIds s = ↑(s.submitted.map Request.id) := by
  induction h with
  | init => simp [liveIds, initState, init_flatMap_inflightIds]
  | step s s' h hs ih =>
    cases hs
    case submit r hok =>
      obtain ⟨-, -, rfl⟩ := submit_request_ok hok
      have ih' := ih
      simp only [liveIds, List.map_append, List.map_cons, List.map_nil,
        ← Multiset.coe_add, ← Multiset.cons_coe, ← Multiset.singleton_add,
        Multiset.coe_nil, add_zero, zero_add] at ih' ⊢
      rw [← ih']
      abel
    case closeInbound => exact ih
    case workerRecv pre post r rest hw hq =>
      refine Eq.trans ?_ ih
      simp only [liveIds, hw, hq, List.flatMap_append, List.flatMap_cons,
        WPhase.inflightIds, List.map_cons, List.map_append, List.map_nil,
        ← Multiset.coe_add, ← Multiset.cons_coe, ← Multiset.singleton_add,
        Multiset.coe_nil, add_zero, zero_add, List.nil_append] <;> abel
    case workerRecvNone pre post hw hclosed hq =>
      refine Eq.trans ?_ ih
      simp only [liveIds, hw, List.flatMap_append, List.flatMap_cons,
        WPhase.inflightIds, ← Multiset.coe_add, ← Multiset.cons_coe,
        ← Multiset.singleton_add, Multiset.coe_nil, add_zero, zero_add,
        List.nil_append] <;> abel
    case workerAcquire pre post r hw hperm hsem =>
      refine Eq.trans ?_ ih
      simp only [liveIds, hw, List.flatMap_append, List.flatMap_cons,
        WPhase.inflightIds, ← Multiset.coe_add, ← Multiset.cons_coe,
        ← Multiset.singleton_add, Multiset.coe_nil, add_zero, zero_add,
        List.nil_append] <;> abel
    case workerAcquirePanic pre post r hw hsem =>
      exact absurd hsem (by simp [reach_semOpen h])
    case workerFinish pre post r hw =>
      refine Eq.trans ?_ ih
      simp only [liveIds, hw, List.flatMap_append, List.flatMap_cons,
        WPhase.inflightIds, mkResponse, ← Multiset.coe_add, ← Multiset.cons_coe,
        ← Multiset.singleton_add, Multiset.coe_nil, add_zero, zero_add,
        List.nil_append] <;> abel
    case workerSend pre post resp hw hcap =>
      refine Eq.trans ?_ ih
      simp only [liveIds, hw, List.flatMap_append, List.flatMap_cons,
        WPhase.inflightIds, List.map_append, List.map_cons, List.map_nil,
        ← Multiset.coe_add, ← Multiset.cons_coe, ← Multiset.singleton_add,
        Multiset.coe_nil, add_zero, zero_add, List.nil_append] <;> abel
    case collectorRecv resp rest hq =>
      refine Eq.trans ?_ ih
      simp only [liveIds, hq, List.map_append, List.map_cons, List.map_nil,
        ← Multiset.coe_add, ← Multiset.cons_coe, ← Multiset.singleton_add,
        Multiset.coe_nil, add_zero, zero_add, List.nil_append] <;> abel
    case collectorRecvNone hdone hq => exact ih

/-- Every response anywhere in the pipeline has status 200 or 500. -/
theorem reach_statusOK {K : Nat} {s : LBState} (h : Reach K s) :
    ∀ resp ∈ inflightResponses s, resp.status = 200 ∨ resp.status = 500 := by
  induction h with
  | init =>
    intro resp hresp
    simp [inflightResponses, initState, init_flatMap_pending] at hresp
  | step s s' h hs ih =>
    cases hs
    case submit r hok =>
      obtain ⟨-, -, rfl⟩ := submit_request_ok hok
      exact ih
    case closeInbound => exact ih
    case workerRecv pre post r rest hw hq =>
      intro resp hresp
      refine ih resp ?_
      simp only [inflightResponses, hw, List.flatMap_append, List.flatMap_cons,
        WPhase.pendingResponses, List.nil_append] at hresp ⊢
      exact hresp
    case workerRecvNone pre post hw hclosed hq =>
      intro resp hresp
      refine ih resp ?_
      simp only [inflightResponses, hw, List.flatMap_append, List.flatMap_cons,
        WPhase.pendingResponses, List.nil_append] at hresp ⊢
      exact hresp
    case workerAcquire pre post r hw hperm hsem =>
      intro resp hresp
      refine ih resp ?_
      simp only [inflightResponses, hw, List.flatMap_append, List.flatMap_cons,
        WPhase.pendingResponses, List.nil_append] at hresp ⊢
      exact hresp
    case workerAcquirePanic pre post r hw hsem =>
      exact absurd hsem (by simp [reach_semOpen h])
    case workerFinish pre post r hw =>
      intro resp hresp
      by_cases hr : resp = mkResponse r
      · rw [hr]
        exact response_status_cases r
      · refine ih resp ?_
        simp only [inflightResponses, hw, List.flatMap_append, List.flatMap_cons,
          WPhase.pendingResponses, List.mem_append, List.mem_cons,
          List.not_mem_nil, List.nil_append] at hresp ⊢
        tauto
    case workerSend pre post resp hw hcap =>
      intro x hx
      refine ih x ?_
      simp only [inflightResponses, hw, List.flatMap_append, List.flatMap_cons,
        WPhase.pendingResponses, List.mem_append, List.mem_cons,
        List.not_mem_nil, List.nil_append] at hx ⊢
      tauto
    case collectorRecv resp rest hq =>
      intro x hx
      refine ih x ?_
      simp only [inflightResponses, hq, List.mem_append, List.mem_cons,
        List.not_mem_nil, List.nil_append] at hx ⊢
      tauto
    case collectorRecvNone hdone hq => exact ih

/-- Accounting for `total_requests`: it always equals (mod `2 ^ 64`) the
number of requests that passed `record_request`, i.e. those currently
executing plus those with a response built (pending, queued or collected). -/
theorem reach_totalAcct {K : Nat} {s : LBState} (h : Reach K s) :
    s.stats.total_requests
      = (s.workers.countP WPhase.isExecuting + (inflightResponses s).length) % u64Limit := by
  induction h with
  | init =>
    simp [initState, ServerStats.new, inflightResponses, init_countP_isExecuting,
      init_flatMap_pending]
  | step s s' h hs ih =>
    cases hs
    case submit r hok =>
      obtain ⟨-, -, rfl⟩ := submit_request_ok hok
      exact ih
    case closeInbound => exact ih
    case workerRecv pre post r rest hw hq =>
      simp [inflightResponses, hw, List.flatMap_append, List.flatMap_cons,
        WPhase.pendingResponses, WPhase.isExecuting, List.countP_append, List.countP_cons,
        List.countP_nil, List.length_append, List.length_cons, List.length_nil,
        u64Limit] at ih ⊢ <;> omega
    case workerRecvNone pre post hw hclosed hq =>
      simp [inflightResponses, hw, List.flatMap_append, List.flatMap_cons,
        WPhase.pendingResponses, WPhase.isExecuting, List.countP_append, List.countP_cons,
        List.countP_nil, List.length_append, List.length_cons, List.length_nil,
        u64Limit] at ih ⊢ <;> omega
    case workerAcquire pre post r hw hperm hsem =>
      simp [inflightResponses, hw, List.flatMap_append, List.flatMap_cons,
        WPhase.pendingResponses, WPhase.isExecuting, List.countP_append, List.countP_cons,
        List.countP_nil, List.length_append, List.length_cons, List.length_nil,
        ServerStats.record_request, u64Limit] at ih ⊢ <;> omega
    case workerAcquirePanic pre post r hw hsem =>
      exact absurd hsem (by simp [reach_semOpen h])
    case workerFinish pre post r hw =>
      by_cases h7 : r.id % 7 = 0 <;>
        simp [h7, inflightResponses, hw, List.flatMap_append, List.flatMap_cons,
          WPhase.pendingResponses, WPhase.isExecuting, List.countP_append, List.countP_cons,
          List.countP_nil, List.length_append, List.length_cons, List.length_nil,
          ServerStats.record_failure, ServerStats.record_success, mkResponse,
          response_status, u64Limit] at ih ⊢ <;> omega
    case workerSend pre post resp hw hcap =>
      simp [inflightResponses, hw, List.flatMap_append, List.flatMap_cons,
        WPhase.pendingResponses, WPhase.isExecuting, List.countP_append, List.countP_cons,
        List.countP_nil, List.length_append, List.length_cons, List.length_nil,
        u64Limit] at ih ⊢ <;> omega
    case collectorRecv resp rest hq =>
      simp [inflightResponses, hq, List.countP_append, List.countP_cons, List.countP_nil,
        List.length_append, List.length_cons, List.length_nil, u64Limit] at ih ⊢ <;> omega
    case collectorRecvNone hdone hq => exact ih

/-- Accounting for `successful_requests`: it always equals (mod `2 ^ 64`)
the number of status-200 responses built so far. -/
theorem reach_succAcct {K : Nat} {s : LBState} (h : Reach K s) :
    s.stats.successful_requests
      = ((inflightResponses s).countP (fun resp => resp.status == 200)) % u64Limit := by
  induction h with
  | init =>
    simp [initState, ServerStats.new, inflightResponses, init_flatMap_pending]
  | step s s' h hs ih =>
    cases hs
    case submit r hok =>
      obtain ⟨-, -, rfl⟩ := submit_request_ok hok
      exact ih
    case closeInbound => exact ih
    case workerRecv pre post r rest hw hq =>
      simp [inflightResponses, hw, List.flatMap_append, List.flatMap_cons,
        WPhase.pendingResponses, List.countP_append, List.countP_cons, List.countP_nil,
        u64Limit] at ih ⊢ <;> omega
    case workerRecvNone pre post hw hclosed hq =>
      simp [inflightResponses, hw, List.flatMap_append, List.flatMap_cons,
        WPhase.pendingResponses, List.countP_append, List.countP_cons, List.countP_nil,
        u64Limit] at ih ⊢ <;> omega
    case workerAcquire pre post r hw hperm hsem =>
      simp [inflightResponses, hw, List.flatMap_append, List.flatMap_cons,
        WPhase.pendingResponses, List.countP_append, List.countP_cons, List.countP_nil,
        ServerStats.record_request, u64Limit] at ih ⊢ <;> omega
    case workerAcquirePanic pre post r hw hsem =>
      exact absurd hsem (by simp [reach_semOpen h])
    case workerFinish pre post r hw =>
      by_cases h7 : r.id % 7 = 0 <;>
        simp [h7, inflightResponses, hw, List.flatMap_append, List.flatMap_cons,
          WPhase.pendingResponses, List.countP_append, List.countP_cons, List.countP_nil,
          ServerStats.record_failure, ServerStats.record_success, mkResponse,
          response_status, u64Limit] at ih ⊢ <;> omega
    case workerSend pre post resp hw hcap =>
      simp [inflightResponses, hw, List.flatMap_append, List.flatMap_cons,
        WPhase.pendingResponses, List.countP_append, List.countP_cons, List.countP_nil,
        u64Limit] at ih ⊢ <;> omega
    case collectorRecv resp rest hq =>
      simp [inflightResponses, hq, List.countP_append, List.countP_cons, List.countP_nil,
        u64Limit] at ih ⊢ <;> omega
    case collectorRecvNone hdone hq => exact ih

/-- Accounting for `failed_requests`: it always equals (mod `2 ^ 64`)
the number of status-500 responses built so far. -/
theorem reach_failAcct {K : Nat} {s : LBState} (h : Reach K s) :
    s.stats.failed_requests
      = ((inflightResponses s).countP (fun resp => resp.status == 500)) % u64Limit := by
  induction h with
  | init =>
    simp [initState, ServerStats.new, inflightResponses, init_flatMap_pending]
  | step s s' h hs ih =>
    cases hs
    case submit r hok =>
      obtain ⟨-, -, rfl⟩ := submit_request_ok hok
      exact ih
    case closeInbound => exact ih
    case workerRecv pre post r rest hw hq =>
      simp [inflightResponses, hw, List.flatMap_append, List.flatMap_cons,
        WPhase.pendingResponses, List.countP_append, List.countP_cons, List.countP_nil,
        u64Limit] at ih ⊢ <;> omega
    case workerRecvNone pre post hw hclosed hq =>
      simp [inflightResponses, hw, List.flatMap_append, List.flatMap_cons,
        WPhase.pendingResponses, List.countP_append, List.countP_cons, List.countP_nil,
        u64Limit] at ih ⊢ <;> omega
    case workerAcquire pre post r hw hperm hsem =>
      simp [inflightResponses, hw, List.flatMap_append, List.flatMap_cons,
        WPhase.pendingResponses, List.countP_append, List.countP_cons, List.countP_nil,
        ServerStats.record_request, u64Limit] at ih ⊢ <;> omega
    case workerAcquirePanic pre post r hw hsem =>
      exact absurd hsem (by simp [reach_semOpen h])
    case workerFinish pre post r hw =>
      by_cases h7 : r.id % 7 = 0 <;>
        simp [h7, inflightResponses, hw, List.flatMap_append, List.flatMap_cons,
          WPhase.pendingResponses, List.countP_append, List.countP_cons, List.countP_nil,
          ServerStats.record_failure, ServerStats.record_success, mkResponse,
          response_status, u64Limit] at ih ⊢ <;> omega
    case workerSend pre post resp hw hcap =>
      simp [inflightResponses, hw, List.flatMap_append, List.flatMap_cons,
        WPhase.pendingResponses, List.countP_append, List.countP_cons, List.countP_nil,
        u64Limit] at ih ⊢ <;> omega
    case collectorRecv resp rest hq =>
      simp [inflightResponses, hq, List.countP_append, List.countP_cons, List.countP_nil,
        u64Limit] at ih ⊢ <;> omega
    case collectorRecvNone hdone hq => exact ih

/-- Once any worker has exited normally, the inbound channel is closed and
empty: `recv` only returns `None` on a closed-and-drained channel, and the
channel never reopens. -/
theorem reach_doneClosed {K : Nat} {s : LBState} (h : Reach K s) :
    WPhase.done ∈ s.workers → s.inClosed = true ∧ s.inQueue = [] := by
  induction h with
  | init =>
    intro hd
    exact absurd (List.eq_of_mem_replicate hd) (by decide)
  | step s s' h hs ih =>
    cases hs
    case submit r hok =>
      obtain ⟨hcl, -, rfl⟩ := submit_request_ok hok
      intro hd
      exact absurd (ih hd).1 (by simp [hcl])
    case closeInbound =>
      intro hd
      exact ⟨rfl, (ih hd).2⟩
    case workerRecv pre post r rest hw hq =>
      intro hd
      rcases mem_update WPhase.idle hd with h2 | h2
      · exact absurd (ih (by rw [hw]; exact h2)).2 (by simp [hq])
      · exact absurd h2 (by simp)
    case workerRecvNone pre post hw hclosed hq =>
      intro hd
      exact ⟨hclosed, hq⟩
    case workerAcquire pre post r hw hperm hsem =>
      intro hd
      rcases mem_update (WPhase.gotReq r) hd with h2 | h2
      · exact ih (by rw [hw]; exact h2)
      · exact absurd h2 (by simp)
    case workerAcquirePanic pre post r hw hsem =>
      exact absurd hsem (by simp [reach_semOpen h])
    case workerFinish pre post r hw =>
      intro hd
      rcases mem_update (WPhase.processing r) hd with h2 | h2
      · exact ih (by rw [hw]; exact h2)
      · exact absurd h2 (by simp)
    case workerSend pre post resp hw hcap =>
      intro hd
      rcases mem_update (WPhase.sending resp) hd with h2 | h2
      · exact ih (by rw [hw]; exact h2)
      · exact absurd h2 (by simp)
    case collectorRecv resp rest hq =>
      intro hd
      exact ih hd
    case collectorRecvNone hdone hq =>
      intro hd
      exact ih hd

/-- Once the collector has observed the end-of-stream `None`, every worker
has exited and the outbound queue is empty — and both stay that way. -/
theorem reach_noneTerminal {K : Nat} {s : LBState} (h : Reach K s) :
    s.sawNone = true → s.workers.all WPhase.exited = true ∧ s.outQueue = [] := by
  induction h with
  | init =>
    intro hsn
    simp [initState] at hsn
  | step s s' h hs ih =>
    cases hs
    case submit r hok =>
      obtain ⟨-, -, rfl⟩ := submit_request_ok hok
      exact ih
    case closeInbound => exact ih
    case workerRecv pre post r rest hw hq =>
      intro hsn
      have h2 := (ih hsn).1
      rw [hw, not_all_exited pre post WPhase.idle rfl] at h2
      exact absurd h2 (by decide)
    case workerRecvNone pre post hw hclosed hq =>
      intro hsn
      have h2 := (ih hsn).1
      rw [hw, not_all_exited pre post WPhase.idle rfl] at h2
      exact absurd h2 (by decide)
    case workerAcquire pre post r hw hperm hsem =>
      intro hsn
      have h2 := (ih hsn).1
      rw [hw, not_all_exited pre post (WPhase.gotReq r) rfl] at h2
      exact absurd h2 (by decide)
    case workerAcquirePanic pre post r hw hsem =>
      exact absurd hsem (by simp [reach_semOpen h])
    case workerFinish pre post r hw =>
      intro hsn
      have h2 := (ih hsn).1
      rw [hw, not_all_exited pre post (WPhase.processing r) rfl] at h2
      exact absurd h2 (by decide)
    case workerSend pre post resp hw hcap =>
      intro hsn
      have h2 := (ih hsn).1
      rw [hw, not_all_exited pre post (WPhase.sending resp) rfl] at h2
      exact absurd h2 (by decide)
    case collectorRecv resp rest hq =>
      intro hsn
      exact absurd (ih hsn).2 (by simp [hq])
    case collectorRecvNone hdone hq =>
      intro hsn
      exact ⟨hdone, hq⟩

/-- A worker list that is all-exited and panic-free holds no request ids. -/
theorem flatMap_inflight_nil (l : List WPhase) (hex : l.all WPhase.exited = true)
    (hnp : ∀ w ∈ l, w ≠ WPhase.panicked) :
    l.flatMap WPhase.inflightIds = [] := by
  induction l with
  | nil => rfl
  | cons a t ihl =>
    simp only [List.all_cons, Bool.and_eq_true] at hex
    have ht : t.flatMap WPhase.inflightIds = [] :=
      ihl hex.2 (fun w hw => hnp w (List.mem_cons_of_mem a hw))
    have ha : WPhase.inflightIds a = [] := by
      cases a <;> simp_all [WPhase.exited, WPhase.inflightIds]
    simp [List.flatMap_cons, ha, ht]

/-- A worker list that is all-exited holds no pending responses. -/
theorem flatMap_pending_nil (l : List WPhase) (hex : l.all WPhase.exited = true) :
    l.flatMap WPhase.pendingResponses = [] := by
  induction l with
  | nil => rfl
  | cons a t ihl =>
    simp only [List.all_cons, Bool.and_eq_true] at hex
    have ht : t.flatMap WPhase.pendingResponses = [] := ihl hex.2
    have ha : WPhase.pendingResponses a = [] := by
      cases a <;> simp_all [WPhase.exited, WPhase.pendingResponses]
    simp [List.flatMap_cons, ha, ht]

/-- A worker list that is all-exited has no executing worker. -/
theorem countP_isExecuting_zero (l : List WPhase) (hex : l.all WPhase.exited = true) :
    l.countP WPhase.isExecuting = 0 := by
  rw [List.countP_eq_zero]
  intro a ha
  have := List.all_eq_true.mp hex a ha
  cases a <;> simp_all [WPhase.exited, WPhase.isExecuting]

/-- Splitting response counts by status: when every status is 200 or 500,
the 200-count and the 500-count partition the list. -/
theorem countP_status_split (l : List Response)
    (h : ∀ resp ∈ l, resp.status = 200 ∨ resp.status = 500) :
    l.countP (fun resp => resp.status == 200)
      + l.countP (fun resp => resp.status == 500) = l.length := by
  induction l with
  | nil => rfl
  | cons a t iht =>
    have ht := iht (fun x hx => h x (List.mem_cons_of_mem a hx))
    have ha := h a (List.mem_cons_self a t)
    rcases ha with ha | ha <;>
      simp [List.countP_cons, List.length_cons, ha] <;> omega

/-- In a drained terminal state (all workers exited, both queues empty),
the collected `request_id`s are a permutation of the accepted submission
ids. -/
theorem drained_perm {K : Nat} {s : LBState} (h : Reach K s)
    (hexit : s.workers.all WPhase.exited = true)
    (hin : s.inQueue = []) (hout : s.outQueue = []) :
    (s.collected.map Response.request_id).Perm (s.submitted.map Request.id) := by
  have hcons := reach_conserve h
  have hnp := reach_noPanic h
  rw [liveIds, hin, hout, flatMap_inflight_nil s.workers hexit hnp] at hcons
  simp only [List.map_nil, Multiset.coe_nil, zero_add, add_zero] at hcons
  exact Multiset.coe_eq_coe.mp hcons

/-- The concrete demonstration run: from `initState 3`, submit `q1` and
`q7`, close the inbound channel, let worker 0 process both requests, let
the collector drain both responses, let all four workers exit, and let the
collector observe the end-of-stream `None`.  This reaches `wState`. -/
theorem reach_wState : Reach 3 wState := by
  have h0 : Reach 3 (initState 3) := Reach.init
  have h1 := Reach.step _ _ h0 (Step.submit _ _ q1 rfl)
  have h2 := Reach.step _ _ h1 (Step.submit _ _ q7 rfl)
  have h3 := Reach.step _ _ h2 (Step.closeInbound _)
  have h4 := Reach.step _ _ h3
    (Step.workerRecv _ [] [WPhase.idle, WPhase.idle, WPhase.idle] q1 [q7] rfl rfl)
  have h5 := Reach.step _ _ h4
    (Step.workerAcquire _ [] [WPhase.idle, WPhase.idle, WPhase.idle] q1 rfl (by decide) rfl)
  have h6 := Reach.step _ _ h5
    (Step.workerFinish _ [] [WPhase.idle, WPhase.idle, WPhase.idle] q1 rfl)
  have h7 := Reach.step _ _ h6
    (Step.workerSend _ [] [WPhase.idle, WPhase.idle, WPhase.idle] (mkResponse q1) rfl
      (by decide))
  have h8 := Reach.step _ _ h7
    (Step.workerRecv _ [] [WPhase.idle, WPhase.idle, WPhase.idle] q7 [] rfl rfl)
  have h9 := Reach.step _ _ h8
    (Step.workerAcquire _ [] [WPhase.idle, WPhase.idle, WPhase.idle] q7 rfl (by decide) rfl)
  have h10 := Reach.step _ _ h9
    (Step.workerFinish _ [] [WPhase.idle, WPhase.idle, WPhase.idle] q7 rfl)
  have h11 := Reach.step _ _ h10
    (Step.workerSend _ [] [WPhase.idle, WPhase.idle, WPhase.idle] (mkResponse q7) rfl
      (by decide))
  have h12 := Reach.step _ _ h11
    (Step.collectorRecv _ (mkResponse q1) [mkResponse q7] rfl)
  have h13 := Reach.step _ _ h12 (Step.collectorRecv _ (mkResponse q7) [] rfl)
  have h14 := Reach.step _ _ h13
    (Step.workerRecvNone _ [] [WPhase.idle, WPhase.idle, WPhase.idle] rfl rfl rfl)
  have h15 := Reach.step _ _ h14
    (Step.workerRecvNone _ [WPhase.done] [WPhase.idle, WPhase.idle] rfl rfl rfl)
  have h16 := Reach.step _ _ h15
    (Step.workerRecvNone _ [WPhase.done, WPhase.done] [WPhase.idle] rfl rfl rfl)
  have h17 := Reach.step _ _ h16
    (Step.workerRecvNone _ [WPhase.done, WPhase.done, WPhase.done] [] rfl rfl rfl)
  have h18 := Reach.step _ _ h17 (Step.collectorRecvNone _ (by decide) rfl)
  exact h18

/-- A generator run in which every submission succeeds submits everything
and reports no failure. -/
theorem generator_loop_all_ok (n : Nat) :
    generator_loop (List.replicate n true) = (n, false) := by
  induction n with
  | zero => rfl
  | succ m ihm => simp [List.replicate, generator_loop, ihm]

/-- A generator run hitting its first failed submission after `k` successes
stops right there (whatever would follow is never attempted) and reports
the failure. -/
theorem generator_loop_stops_at_first_error (k : Nat) (rest : List Bool) :
    generator_loop (List.replicate k true ++ false :: rest) = (k, true) := by
  induction k with
  | zero => simp [generator_loop]
  | succ m ihm => simp [List.replicate, generator_loop, ihm]

/-- Full characterisation of a terminating collector loop run starting at
`received`: the stop reason determines the count and is reflected in the
printed log. -/
theorem collectorLoop_spec (expected : Nat) (polls : List PollResult) :
    ∀ (received : Nat) (out : CollectorOutcome),
      received ≤ expected →
      collectorLoop expected received polls = some out →
      (out.reason = StopReason.countReached → out.received = expected) ∧
      (out.reason = StopReason.streamClosed ↔ LogEntry.channelClosedMsg ∈ out.log) ∧
      (out.reason = StopReason.respTimeout ↔ LogEntry.timeoutMsg ∈ out.log) ∧
      LogEntry.finalReport out.received ∈ out.log := by
  induction polls with
  | nil =>
    intro received out hle hout
    simp only [collectorLoop] at hout
    by_cases hlt : received < expected
    · rw [if_pos hlt] at hout
      exact absurd hout (by simp)
    · rw [if_neg hlt] at hout
      simp only [Option.some.injEq] at hout
      subst hout
      refine ⟨fun _ => ?_, by simp, by simp, by simp⟩
      show received = expected
      omega
  | cons p rest ihp =>
    intro received out hle hout
    cases p
    case resp r =>
      simp only [collectorLoop] at hout
      by_cases hlt : received < expected
      · rw [if_pos hlt] at hout
        cases hrec : collectorLoop expected (received + 1) rest with
        | none =>
          rw [hrec] at hout
          exact absurd hout (by simp)
        | some out2 =>
          rw [hrec] at hout
          simp only [Option.some.injEq] at hout
          subst hout
          obtain ⟨hih1, hih2, hih3, hih4⟩ := ihp (received + 1) out2 (by omega) hrec
          dsimp only
          refine ⟨hih1, ?_, ?_, List.mem_cons_of_mem _ hih4⟩
          · rw [hih2]
            constructor
            · exact fun hm => List.mem_cons_of_mem _ hm
            · intro hm
              rcases List.mem_cons.mp hm with hm | hm
              · by_cases hst : r.status = 200 <;> simp [hst] at hm
              · exact hm
          · rw [hih3]
            constructor
            · exact fun hm => List.mem_cons_of_mem _ hm
            · intro hm
              rcases List.mem_cons.mp hm with hm | hm
              · by_cases hst : r.status = 200 <;> simp [hst] at hm
              · exact hm
      · rw [if_neg hlt] at hout
        simp only [Option.some.injEq] at hout
        subst hout
        refine ⟨fun _ => ?_, by simp, by simp, by simp⟩
        show received = expected
        omega
    case chanClosed =>
      simp only [collectorLoop] at hout
      by_cases hlt : received < expected
      · rw [if_pos hlt] at hout
        simp only [Option.some.injEq] at hout
        subst hout
        refine ⟨?_, by simp, by simp, by simp⟩
        intro hcon
        simp at hcon
      · rw [if_neg hlt] at hout
        simp only [Option.some.injEq] at hout
        subst hout
        refine ⟨fun _ => ?_, by simp, by simp, by simp⟩
        show received = expected
        omega
    case timedOut =>
      simp only [collectorLoop] at hout
      by_cases hlt : received < expected
      · rw [if_pos hlt] at hout
        simp only [Option.some.injEq] at hout
        subst hout
        refine ⟨?_, by simp, by simp, by simp⟩
        intro hcon
        simp at hcon
      · rw [if_neg hlt] at hout
        simp only [Option.some.injEq] at hout
        subst hout
        refine ⟨fun _ => ?_, by simp, by simp, by simp⟩
        show received = expected
        omega

/-! The claims. -/

/-- C1: every `Request` accepted by `submit_request` into a live dispatcher
produces exactly one `Response` whose `request_id` equals the originating
`Request.id`: in any reachable state in which the run has completed (all
workers exited, both queues drained), the collected `request_id`s are a
permutation of the accepted submission ids — so when the submitted ids are
distinct, the collected set equals the submitted set with no duplicates,
regardless of completion order. -/
theorem responses_match_submissions {K : Nat} {s : LBState} (h : Reach K s)
    (hexit : s.workers.all WPhase.exited = true)
    (hin : s.inQueue = []) (hout : s.outQueue = [])
    (hnodup : (s.submitted.map Request.id).Nodup) :
    (s.collected.map Response.request_id).Perm (s.submitted.map Request.id) ∧
    (s.collected.map Response.request_id).Nodup := by
  have hperm := drained_perm h hexit hin hout
  exact ⟨hperm, hperm.nodup_iff.mpr hnodup⟩

/-- Witness for the C1 theorem at the completed concrete run `wState`. -/
theorem responses_match_submissions_witness :
    (wState.collected.map Response.request_id).Perm (wState.submitted.map Request.id) ∧
    (wState.collected.map Response.request_id).Nodup :=
  responses_match_submissions reach_wState (by decide) rfl rfl (by decide)

/-- C2: with semaphore cap `K`, at every reachable instant the number of
requests being executed across all workers is at most `K`; permits are
acquired before execution and released when the request's handling ends on
every exit path, so available permits plus held permits always equal `K`;
and `available_slots` (a `usize`, hence never negative) never exceeds `K`. -/
theorem concurrency_cap_invariant {K : Nat} {s : LBState} (h : Reach K s) :
    s.workers.countP WPhase.isExecuting ≤ K ∧
    s.permits + s.workers.countP WPhase.holdsPermit = K ∧
    LoadBalancer.available_slots s ≤ K := by
  have hp := reach_permitAcct h
  have hmono : s.workers.countP WPhase.isExecuting
      ≤ s.workers.countP WPhase.holdsPermit := by
    refine List.countP_mono_left ?_
    intro w hw hx
    cases w <;> simp_all [WPhase.isExecuting, WPhase.holdsPermit]
  refine ⟨by omega, hp, ?_⟩
  show s.permits ≤ K
  omega

/-- Witness for the C2 theorem at the concrete run `wState` (cap 3). -/
theorem concurrency_cap_invariant_witness :
    wState.workers.countP WPhase.isExecuting ≤ 3 ∧
    wState.permits + wState.workers.countP WPhase.holdsPermit = 3 ∧
    LoadBalancer.available_slots wState ≤ 3 :=
  concurrency_cap_invariant reach_wState

/-- C3: across any single step the stats counters change by at most one
`record_request`, `record_success` or `record_failure` (exactly one of
success/failure per finished request, never both); and once every worker
has terminated and every accepted request has produced a response,
`total_requests = successful_requests + failed_requests` — as wrapping
`u64` counters in general, and exactly whenever fewer than `2 ^ 64`
responses exist. -/
theorem stats_once_and_consistent {K : Nat} {s : LBState} (h : Reach K s) :
    (∀ s2, Step s s2 → StatsDelta s.stats s2.stats) ∧
    (s.workers.all WPhase.exited = true →
      (s.stats.successful_requests + s.stats.failed_requests) % u64Limit
        = s.stats.total_requests) ∧
    (s.workers.all WPhase.exited = true →
      s.outQueue.length + s.collected.length < u64Limit →
      s.stats.successful_requests + s.stats.failed_requests
        = s.stats.total_requests) := by
  refine ⟨?_, ?_, ?_⟩
  · intro s2 hs
    cases hs
    case submit r hok =>
      obtain ⟨-, -, rfl⟩ := submit_request_ok hok
      exact Or.inl rfl
    case closeInbound => exact Or.inl rfl
    case workerRecv pre post r rest hw hq => exact Or.inl rfl
    case workerRecvNone pre post hw hclosed hq => exact Or.inl rfl
    case workerAcquire pre post r hw hperm hsem => exact Or.inr (Or.inl rfl)
    case workerAcquirePanic pre post r hw hsem => exact Or.inl rfl
    case workerFinish pre post r hw =>
      by_cases h7 : r.id % 7 = 0
      · exact Or.inr (Or.inr (Or.inr (by simp [h7])))
      · exact Or.inr (Or.inr (Or.inl (by simp [h7])))
    case workerSend pre post resp hw hcap => exact Or.inl rfl
    case collectorRecv resp rest hq => exact Or.inl rfl
    case collectorRecvNone hdone hq => exact Or.inl rfl
  · intro hexit
    have hsplit := countP_status_split (inflightResponses s) (reach_statusOK h)
    have hzero := countP_isExecuting_zero s.workers hexit
    have ht := reach_totalAcct h
    have hs2 := reach_succAcct h
    have hf := reach_failAcct h
    rw [hzero] at ht
    rw [ht, hs2, hf]
    simp only [u64Limit] at ht hsplit ⊢
    omega
  · intro hexit hbound
    have hpend := flatMap_pending_nil s.workers hexit
    have hlen : (inflightResponses s).length
        = s.outQueue.length + s.collected.length := by
      simp [inflightResponses, hpend]
    have hsplit := countP_status_split (inflightResponses s) (reach_statusOK h)
    have hzero := countP_isExecuting_zero s.workers hexit
    have ht := reach_totalAcct h
    have hs2 := reach_succAcct h
    have hf := reach_failAcct h
    rw [hzero] at ht
    rw [ht, hs2, hf]
    simp only [u64Limit] at hbound hsplit hlen ⊢
    omega

/-- Witness for the C3 theorem at the completed concrete run `wState`
(1 success + 1 failure = 2 total). -/
theorem stats_once_and_consistent_witness :
    ((wState.stats.successful_requests + wState.stats.failed_requests) % u64Limit
        = wState.stats.total_requests) ∧
    (wState.stats.successful_requests + wState.stats.failed_requests
        = wState.stats.total_requests) :=
  ⟨(stats_once_and_consistent reach_wState).2.1 (by decide),
   (stats_once_and_consistent reach_wState).2.2 (by decide) (by decide)⟩

/-- C4: handling a request sleeps for its `processing_time` and yields a
response with status 500 if `id % 7 == 0` and 200 otherwise; on the
scripted generator sequence of ids 1..20 the failures occur exactly at ids
7 and 14. -/
theorem handle_request_status_rule (stats : ServerStats) (r : Request) :
    (handle_request stats r).slept = r.processing_time ∧
    (handle_request stats r).response.status = (if r.id % 7 = 0 then 500 else 200) ∧
    (((List.range' 1 20).map genRequest).filter
        (fun q => (handle_request stats q).response.status == 500)).map Request.id
      = [7, 14] := by
  refine ⟨rfl, rfl, ?_⟩
  have hfun : (fun q : Request => (handle_request stats q).response.status == 500)
      = (fun q : Request => q.id % 7 == 0) := by
    funext q
    show (response_status q.id == 500) = (q.id % 7 == 0)
    by_cases h7 : q.id % 7 = 0 <;> simp [response_status, h7]
  rw [hfun]
  decide

/-- C5: the outbound channel reports end-of-stream only after every worker
has terminated with the outbound queue drained, so whenever the collector
has observed `None`, the inbound queue is also empty and the collector has
already received every response of the run (the collected ids are exactly
the accepted submission ids). -/
theorem end_of_stream_only_after_drain {K : Nat} {s : LBState} (h : Reach K s)
    (hnone : s.sawNone = true) :
    s.workers.all WPhase.exited = true ∧ s.outQueue = [] ∧ s.inQueue = [] ∧
    (s.collected.map Response.request_id).Perm (s.submitted.map Request.id) := by
  have hterm := reach_noneTerminal h hnone
  have hnp := reach_noPanic h
  have hwlen := reach_wlen h
  have hex : ∃ w, w ∈ s.workers := by
    refine List.exists_mem_of_ne_nil _ ?_
    intro hnil
    rw [hnil] at hwlen
    simp [num_workers] at hwlen
  obtain ⟨w, hwmem⟩ := hex
  have hwex := List.all_eq_true.mp hterm.1 w hwmem
  have hnpw := hnp w hwmem
  have hwdone : w = WPhase.done := by
    cases w
    case done => rfl
    case panicked => exact absurd rfl hnpw
    all_goals simp [WPhase.exited] at hwex
  have hin : s.inQueue = [] := (reach_doneClosed h (hwdone ▸ hwmem)).2
  exact ⟨hterm.1, hterm.2, hin, drained_perm h hterm.1 hin hterm.2⟩

/-- Witness for the C5 theorem at the concrete run `wState`, where the
collector has observed the end-of-stream `None`. -/
theorem end_of_stream_only_after_drain_witness :
    wState.workers.all WPhase.exited = true ∧ wState.outQueue = [] ∧
    wState.inQueue = [] ∧
    (wState.collected.map Response.request_id).Perm (wState.submitted.map Request.id) :=
  end_of_stream_only_after_drain reach_wState rfl

/-- C6: `submit_request` returns an error exactly when the inbound channel
is closed; on an open channel with room it enqueues the request and returns
`Ok`, and on an open channel at capacity it suspends the caller — never
dropping the request and never erroring; and the generator loop stops at
the first submission error, reporting the failure, while a submission error
changes nothing in the dispatcher state. -/
theorem submit_error_iff_closed (s : LBState) (r : Request) (n k : Nat)
    (rest : List Bool) :
    ((∃ msg, submit_request s r = SubmitOutcome.err msg) ↔ s.inClosed = true) ∧
    (s.inClosed = false → s.inQueue.length < inbound_capacity →
      submit_request s r = SubmitOutcome.ok
        { s with inQueue := s.inQueue ++ [r], submitted := s.submitted ++ [r] }) ∧
    (s.inClosed = false → inbound_capacity ≤ s.inQueue.length →
      submit_request s r = SubmitOutcome.suspended) ∧
    generator_loop (List.replicate n true) = (n, false) ∧
    generator_loop (List.replicate k true ++ false :: rest) = (k, true) := by
  refine ⟨?_, ?_, ?_, generator_loop_all_ok n, generator_loop_stops_at_first_error k rest⟩
  · constructor
    · rintro ⟨msg, hmsg⟩
      by_cases h1 : s.inClosed = true
      · exact h1
      · have h1x : s.inClosed = false := by simpa using h1
        by_cases h2 : s.inQueue.length < inbound_capacity <;>
          simp [submit_request, h1x, h2] at hmsg
    · intro h1
      exact ⟨"无法提交请求", by simp [submit_request, h1]⟩
  · intro h1 h2
    simp [submit_request, h1, h2]
  · intro h1 h2
    simp [submit_request, h1, Nat.not_lt.mpr h2]

/-- Witness for the C6 theorem: on the closed dispatcher the submit errors,
on the fresh dispatcher it enqueues, and a generator hitting an error after
5 successes stops at 5 and reports failure. -/
theorem submit_error_iff_closed_witness :
    (∃ msg, submit_request { initState 3 with inClosed := true } q1
        = SubmitOutcome.err msg) ∧
    submit_request (initState 3) q1 = SubmitOutcome.ok
      { initState 3 with inQueue := [q1], submitted := [q1] } ∧
    generator_loop (List.replicate 5 true ++ false :: [true]) = (5, true) :=
  ⟨(submit_error_iff_closed { initState 3 with inClosed := true } q1 0 0 []).1.mpr rfl,
   (submit_error_iff_closed (initState 3) q1 0 0 []).2.1 rfl (by decide),
   (submit_error_iff_closed (initState 3) q1 0 5 [true]).2.2.2.2⟩

/-- C7: a terminating collector run stops for exactly one of three reasons —
expected count reached, stream closed (`Ok(None)`), or the per-call timeout
elapsed — and the three outcomes are distinguished in its output: the
"channel closed" line appears iff it stopped on `streamClosed`, the
"timeout" line appears iff it stopped on `respTimeout`, a count-reached stop
prints neither, and every run ends with the final report line. -/
theorem collector_stops_three_ways (expected : Nat) (polls : List PollResult)
    (out : CollectorOutcome)
    (h : response_collector expected polls = some out) :
    (out.reason = StopReason.countReached ∨ out.reason = StopReason.streamClosed
      ∨ out.reason = StopReason.respTimeout) ∧
    (out.reason = StopReason.countReached →
      out.received = expected ∧ LogEntry.channelClosedMsg ∉ out.log ∧
        LogEntry.timeoutMsg ∉ out.log) ∧
    (out.reason = StopReason.streamClosed ↔ LogEntry.channelClosedMsg ∈ out.log) ∧
    (out.reason = StopReason.respTimeout ↔ LogEntry.timeoutMsg ∈ out.log) ∧
    LogEntry.finalReport out.received ∈ out.log := by
  have hspec := collectorLoop_spec expected polls 0 out (Nat.zero_le _) h
  refine ⟨?_, ?_, hspec.2.1, hspec.2.2.1, hspec.2.2.2⟩
  · cases hr : out.reason <;> simp
  · intro hcr
    refine ⟨hspec.1 hcr, ?_, ?_⟩
    · intro hmem
      have hx := hspec.2.1.mpr hmem
      rw [hcr] at hx
      simp at hx
    · intro hmem
      have hx := hspec.2.2.1.mpr hmem
      rw [hcr] at hx
      simp at hx

/-- Witness for the C7 theorem on a concrete run: expecting one response
and receiving it, the collector stops with the count reached and prints
neither warning line. -/
theorem collector_stops_three_ways_witness :
    wOutcome.received = 1 ∧ LogEntry.channelClosedMsg ∉ wOutcome.log ∧
      LogEntry.timeoutMsg ∉ wOutcome.log :=
  (collector_stops_three_ways 1 [PollResult.resp wResp1] wOutcome rfl).2.1 rfl

/-- C8: the `unwrap()` on the worker's semaphore acquire can never panic:
in every reachable state the semaphore is still open (nothing ever closes
it), so the acquire-error branch is unreachable and no worker is ever in
the panicked state. -/
theorem acquire_unwrap_never_panics {K : Nat} {s : LBState} (h : Reach K s) :
    s.semClosed = false ∧ ∀ w ∈ s.workers, w ≠ WPhase.panicked :=
  ⟨reach_semOpen h, reach_noPanic h⟩

/-- Witness for the C8 theorem at the completed concrete run `wState`. -/
theorem acquire_unwrap_never_panics_witness :
    wState.semClosed = false ∧ ∀ w ∈ wState.workers, w ≠ WPhase.panicked :=
  acquire_unwrap_never_panics reach_wState

/-- C9: the response status computed by `handle_request` is a function of
the request id alone — two invocations on requests with equal ids yield
equal statuses regardless of path, processing time, or the stats state of
the handler executing them. -/
theorem status_depends_only_on_id (st1 st2 : ServerStats) (r1 r2 : Request)
    (hid : r1.id = r2.id) :
    (handle_request st1 r1).response.status
      = (handle_request st2 r2).response.status := by
  simp [handle_request, mkResponse, response_status, hid]

/-- Witness for the C9 theorem: same id 1, different path, processing time
and stats. -/
theorem status_depends_only_on_id_witness :
    (handle_request ServerStats.new q1).response.status
      = (handle_request wState.stats
          { id := 1, path := "z", processing_time := 999 }).response.status :=
  status_depends_only_on_id ServerStats.new wState.stats q1
    { id := 1, path := "z", processing_time := 999 } rfl

/-- C10: for every `max_concurrent`, the constructor fixes the inbound
queue capacity at 100, the outbound queue capacity at 100 and the worker
count at 4 — none of them depend on the only constructor parameter, which
sets exactly the semaphore permit count, as also visible in the initial
dispatcher state. -/
theorem constructor_fixed_configuration (k k2 : Nat) :
    (LoadBalancer.newConfig k).request_queue_capacity = 100 ∧
    (LoadBalancer.newConfig k).response_queue_capacity = 100 ∧
    (LoadBalancer.newConfig k).worker_count = 4 ∧
    (LoadBalancer.newConfig k).semaphore_permits = k ∧
    (LoadBalancer.newConfig k).worker_count = (LoadBalancer.newConfig k2).worker_count ∧
    (LoadBalancer.newConfig k).request_queue_capacity
      = (LoadBalancer.newConfig k2).request_queue_capacity ∧
    (LoadBalancer.newConfig k).response_queue_capacity
      = (LoadBalancer.newConfig k2).response_queue_capacity ∧
    (initState k).workers.length = (LoadBalancer.newConfig k).worker_count ∧
    LoadBalancer.available_slots (initState k) = k := by
  simp [LoadBalancer.newConfig, initState, num_workers, inbound_capacity,
    outbound_capacity, LoadBalancer.available_slots]

end AsyncServer
